import Mathlib

/-!
Verification of the scheduling and dispatch engine of Pingur (`src/bot.py`).

Shallow embedding conventions:

* Instants are integers counting seconds on one timeline (the naive reading of
  the ISO strings the program stores; for timezone-aware values produced with
  `pytz.utc` this is UTC itself).  `timedelta(minutes=m)` becomes `60 * m`.
* The reminders table is a `List Reminder`.  Columns that the verified state
  transitions never read (`channel_id`, `user_id`, `target_ids`, `target_type`,
  `message`, `dm`, `ghost_ping`, `created_at`) are not carried; target
  resolution and message delivery are external effects abstracted by a
  `FireResult` environment, one outcome per reminder id.
* SQL `UPDATE ... WHERE id = ?` becomes a map over the list touching the rows
  whose `id` matches.
* The `while` loop of the recurring re-arm is embedded with explicit fuel
  (`none` = the loop did not finish within the given fuel), since the Python
  loop diverges when the step is not positive.
-/

namespace Pingur

/-- `time_unit` column: CHECK(time_unit IN ('minutes', 'hours', 'days')). -/
inductive TimeUnit
  | minutes
  | hours
  | days
deriving DecidableEq, Repr

/-- `TIME_UNITS = {'minutes': 1, 'hours': 60, 'days': 1440}` (bot.py:40). -/
def TIME_UNITS : TimeUnit → Int
  | .minutes => 1
  | .hours => 60
  | .days => 1440

/-- Python `timedelta(minutes=m)`, measured in seconds. -/
def timedeltaMinutes (m : Int) : Int := 60 * m

/-- One row of the `reminders` table (bot.py:220-240), restricted to the
columns read by the scheduling state transitions.  `last_ping` and `next_ping`
are instants in seconds; `interval` is the raw INTEGER column. -/
structure Reminder where
  id : Nat
  guild_id : Nat
  interval : Int
  time_unit : TimeUnit
  last_ping : Option Int
  next_ping : Int
  active : Bool
  recurring : Bool
deriving DecidableEq, Repr

/-- The scheduling query of `check_reminders` (bot.py:1100-1103):
`SELECT * FROM reminders WHERE active = 1 AND next_ping <= now`. -/
def due_and_active (db : List Reminder) (now : Int) : List Reminder :=
  db.filter fun r => r.active && decide (r.next_ping ≤ now)

/-- Outcome of the external world (guild lookup, target resolution, message
delivery) for one due reminder during one tick of `check_reminders`:

* `noGuild`     — `bot.get_guild` returned `None` (bot.py:1116-1119): `continue`.
* `noTargets`   — no target resolved (bot.py:1132-1134): `continue`.
* `forbidden`   — the send raised `discord.Forbidden` (bot.py:1178).
* `sendError`   — the send raised another exception (bot.py:1180).
* `channelMissing` — channel branch with `guild.get_channel` returning `None`
  (bot.py:1141-1142): nothing is sent but control falls through to the update.
* `sent`        — every send succeeded.
-/
inductive FireResult
  | noGuild
  | noTargets
  | forbidden
  | sendError
  | channelMissing
  | sent
deriving DecidableEq, Repr

/-- Whether the tick reaches the `UPDATE reminders` statements
(bot.py:1155-1176) for a reminder with this outcome: the update runs exactly
when no exception was raised and the early `continue`s were not taken. -/
def FireResult.updatesRow : FireResult → Bool
  | .noGuild => false
  | .noTargets => false
  | .forbidden => false
  | .sendError => false
  | .channelMissing => true
  | .sent => true

/-- The recurring re-arm loop of `check_reminders` (bot.py:1159-1161):
`next_ping_time = now; while next_ping_time <= now: next_ping_time += step`,
with explicit fuel (`none` = not terminated within `fuel` iterations). -/
def advanceWhile (now step : Int) : Nat → Int → Option Int
  | 0, _ => none
  | fuel + 1, cur => if cur ≤ now then advanceWhile now step fuel (cur + step) else some cur

/-- The re-arm computation for a recurring reminder:
`interval_minutes = interval * TIME_UNITS[time_unit]` then the `while` loop
starting from `now` (bot.py:1156-1161). -/
def rearmNextPing (now intervalMinutes : Int) (fuel : Nat) : Option Int :=
  advanceWhile now (timedeltaMinutes intervalMinutes) fuel now

/-- `UPDATE reminders SET last_ping = now, next_ping = t WHERE id = id`
(bot.py:1163-1167). -/
def setFire (i : Nat) (now t : Int) (db : List Reminder) : List Reminder :=
  db.map fun x => if x.id = i then { x with last_ping := some now, next_ping := t } else x

/-- `UPDATE reminders SET active = 0, last_ping = now WHERE id = id`
(bot.py:1170-1174). -/
def setRetire (i : Nat) (now : Int) (db : List Reminder) : List Reminder :=
  db.map fun x => if x.id = i then { x with active := false, last_ping := some now } else x

/-- The per-reminder loop body of `check_reminders` (bot.py:1106-1186), folded
over the snapshot `rest` of due reminders fetched at the start of the tick.
A reminder whose outcome does not reach the update leaves the table untouched;
otherwise a recurring reminder is re-armed (bot.py:1156-1167) and a one-time
reminder is retired (bot.py:1168-1174).  `none` propagates a diverging re-arm
loop. -/
def processDue (env : Nat → FireResult) (fuel : Nat) (now : Int) :
    List Reminder → List Reminder → Option (List Reminder)
  | db, [] => some db
  | db, r :: rest =>
    if (env r.id).updatesRow then
      if r.recurring then
        match rearmNextPing now (r.interval * TIME_UNITS r.time_unit) fuel with
        | some t => processDue env fuel now (setFire r.id now t db) rest
        | none => none
      else
        processDue env fuel now (setRetire r.id now db) rest
    else
      processDue env fuel now db rest

/-- One tick of the scheduler loop `check_reminders` (bot.py:1093-1186):
capture `now`, fetch the due snapshot, process it. -/
def check_reminders (env : Nat → FireResult) (fuel : Nat) (now : Int)
    (db : List Reminder) : Option (List Reminder) :=
  processDue env fuel now db (due_and_active db now)

/-- One future tick: its external-world outcomes, its captured `now`, and the
fuel bound for its re-arm loops. -/
structure Tick where
  env : Nat → FireResult
  now : Int
  fuel : Nat

/-- A sequence of scheduler ticks, each applied to the table left by the
previous one. -/
def runTicks : List Tick → List Reminder → Option (List Reminder)
  | [], db => some db
  | t :: ts, db =>
    match check_reminders t.env t.fuel t.now db with
    | some db' => runTicks ts db'
    | none => none

/-- `add_ping` (bot.py:433-591), restricted to its timing computation and
insert (bot.py:558-591): `interval_minutes = interval * TIME_UNITS[time_unit]`,
`next_ping = now + timedelta(minutes=interval_minutes)` where `now =
datetime.now(tz)` is timezone-aware, so the `astimezone(pytz.utc)` conversion
(bot.py:565) leaves the instant unchanged.  The validation guards preceding
the insert only return early without touching the table.  The insert stores
`last_ping = now`, `recurring = True`, `active = True` (bot.py:569-590). -/
def add_ping (db : List Reminder) (newId gid : Nat) (nowUtc : Int)
    (interval : Int) (time_unit : TimeUnit) : List Reminder :=
  let interval_minutes := interval * TIME_UNITS time_unit
  let next_ping := nowUtc + timedeltaMinutes interval_minutes
  db ++ [{ id := newId, guild_id := gid, interval := interval, time_unit := time_unit,
           last_ping := some nowUtc, next_ping := next_ping,
           active := true, recurring := true }]

/-! ### Properties of the re-arm loop -/

/-- Positivity of the unit multipliers. -/
lemma TIME_UNITS_pos (u : TimeUnit) : 0 < TIME_UNITS u := by
  cases u <;> decide

/-- Any value the re-arm loop returns is strictly after `now`. -/
lemma advanceWhile_gt {now step : Int} :
    ∀ {fuel : Nat} {cur t : Int}, advanceWhile now step fuel cur = some t → now < t := by
  intro fuel
  induction fuel with
  | zero => intro cur t h; simp [advanceWhile] at h
  | succ f ih =>
    intro cur t h
    rw [advanceWhile] at h
    by_cases hc : cur ≤ now
    · rw [if_pos hc] at h
      exact ih h
    · rw [if_neg hc] at h
      cases h
      exact lt_of_not_le hc

/-- Any value the re-arm loop returns is either the starting point or one
step past some instant that was still at or before `now`. -/
lemma advanceWhile_shape {now step : Int} :
    ∀ {fuel : Nat} {cur t : Int}, advanceWhile now step fuel cur = some t →
      t = cur ∨ ∃ p, p ≤ now ∧ t = p + step := by
  intro fuel
  induction fuel with
  | zero => intro cur t h; simp [advanceWhile] at h
  | succ f ih =>
    intro cur t h
    rw [advanceWhile] at h
    by_cases hc : cur ≤ now
    · rw [if_pos hc] at h
      rcases ih h with h' | h'
      · exact Or.inr ⟨cur, hc, h'⟩
      · exact Or.inr h'
    · rw [if_neg hc] at h
      cases h
      exact Or.inl rfl

/-- C2: for a recurring reminder with `interval_amount ≥ 1`, whatever the
prior `next_fire_at` was, the value the scheduler's re-arm loop computes is
strictly greater than the tick's captured `now` and at most `now` plus one
interval (`amount × TIME_UNITS u` minutes): never in the past, no drift. -/
theorem rearm_strictly_future_at_most_one_interval
    (now amount : Int) (u : TimeUnit) (fuel : Nat) (t : Int)
    (_hamount : 1 ≤ amount)
    (h : rearmNextPing now (amount * TIME_UNITS u) fuel = some t) :
    now < t ∧ t ≤ now + timedeltaMinutes (amount * TIME_UNITS u) := by
  have hgt : now < t := advanceWhile_gt h
  refine ⟨hgt, ?_⟩
  rcases advanceWhile_shape h with h' | ⟨p, hp, rfl⟩
  · omega
  · omega

/-- Witness for C2 at `now = 0`, one-minute interval, fuel 2. -/
theorem rearm_strictly_future_at_most_one_interval_witness :
    (0 : Int) < 60 ∧ (60 : Int) ≤ 0 + timedeltaMinutes (1 * TIME_UNITS TimeUnit.minutes) :=
  rearm_strictly_future_at_most_one_interval 0 1 TimeUnit.minutes 2 60
    (by decide) (by decide)

/-- C10: with a positive `interval_amount` the re-arm `while` loop terminates
(and is fuel-independent from fuel 2 on, always yielding `now` plus exactly
one interval); positivity of the step is what makes it well-founded. -/
theorem rearm_terminates_on_positive_interval
    (now amount : Int) (u : TimeUnit) (fuel : Nat)
    (hamount : 1 ≤ amount) (hfuel : 2 ≤ fuel) :
    rearmNextPing now (amount * TIME_UNITS u) fuel
      = some (now + timedeltaMinutes (amount * TIME_UNITS u)) := by
  have hu : 0 < TIME_UNITS u := TIME_UNITS_pos u
  have him : 0 < amount * TIME_UNITS u := mul_pos (by omega) hu
  have hstep : 0 < timedeltaMinutes (amount * TIME_UNITS u) := by
    unfold timedeltaMinutes; omega
  obtain ⟨k, rfl⟩ : ∃ k, fuel = k + 2 := ⟨fuel - 2, by omega⟩
  rw [rearmNextPing, advanceWhile, if_pos le_rfl, advanceWhile,
    if_neg (by omega)]

/-- Witness for C10 at `now = 5`, amount 3, hours, fuel 2. -/
theorem rearm_terminates_on_positive_interval_witness :
    rearmNextPing 5 (3 * TIME_UNITS TimeUnit.hours) 2
      = some (5 + timedeltaMinutes (3 * TIME_UNITS TimeUnit.hours)) :=
  rearm_terminates_on_positive_interval 5 3 TimeUnit.hours 2 (by decide) (by decide)

/-- C4: creating an interval-based ping with `interval ≥ 1` appends one row
whose `next_ping` is exactly the creation instant plus
`interval * TIME_UNITS u` minutes, hence strictly in the future. -/
theorem add_ping_next_ping_strictly_future
    (db : List Reminder) (newId gid : Nat) (nowUtc interval : Int) (u : TimeUnit)
    (hinterval : 1 ≤ interval) :
    ∃ r, add_ping db newId gid nowUtc interval u = db ++ [r] ∧
      r.next_ping = nowUtc + timedeltaMinutes (interval * TIME_UNITS u) ∧
      nowUtc < r.next_ping := by
  refine ⟨_, rfl, rfl, ?_⟩
  have hu : 0 < TIME_UNITS u := TIME_UNITS_pos u
  have him : 0 < interval * TIME_UNITS u := mul_pos (by omega) hu
  show nowUtc < nowUtc + timedeltaMinutes (interval * TIME_UNITS u)
  unfold timedeltaMinutes
  omega

/-- Witness for C4: a concrete creation at instant 0 with a 2-day interval. -/
theorem add_ping_next_ping_strictly_future_witness :
    ∃ r, add_ping [] 1 7 0 2 TimeUnit.days = [] ++ [r] ∧
      r.next_ping = 0 + timedeltaMinutes (2 * TIME_UNITS TimeUnit.days) ∧
      (0 : Int) < r.next_ping :=
  add_ping_next_ping_strictly_future [] 1 7 0 2 TimeUnit.days (by decide)

/-! ### Invariants of the scheduler tick -/

/-- Every row with id `i` is retired with `last_ping` recorded at `now`. -/
def RetiredSince (i : Nat) (now : Int) (db : List Reminder) : Prop :=
  ∀ x ∈ db, x.id = i → x.active = false ∧ x.last_ping = some now

/-- Every row with id `i` is inactive. -/
def InactiveId (i : Nat) (db : List Reminder) : Prop :=
  ∀ x ∈ db, x.id = i → x.active = false

lemma mem_due_and_active {db : List Reminder} {now : Int} {x : Reminder} :
    x ∈ due_and_active db now ↔ x ∈ db ∧ x.active = true ∧ x.next_ping ≤ now := by
  simp [due_and_active, List.mem_filter, and_assoc]

lemma setFire_retiredSince {i j : Nat} {now t : Int} {db : List Reminder}
    (h : RetiredSince i now db) : RetiredSince i now (setFire j now t db) := by
  intro x hx hid
  rcases List.mem_map.mp hx with ⟨y, hy, rfl⟩
  by_cases hyj : y.id = j
  · rw [if_pos hyj] at hid ⊢
    exact ⟨(h y hy hid).1, rfl⟩
  · rw [if_neg hyj] at hid ⊢
    exact h y hy hid

lemma setRetire_retiredSince {i j : Nat} {now : Int} {db : List Reminder}
    (h : RetiredSince i now db) : RetiredSince i now (setRetire j now db) := by
  intro x hx hid
  rcases List.mem_map.mp hx with ⟨y, hy, rfl⟩
  by_cases hyj : y.id = j
  · rw [if_pos hyj]
    exact ⟨rfl, rfl⟩
  · rw [if_neg hyj] at hid ⊢
    exact h y hy hid

lemma setRetire_self_retiredSince {i : Nat} {now : Int} (db : List Reminder) :
    RetiredSince i now (setRetire i now db) := by
  intro x hx hid
  rcases List.mem_map.mp hx with ⟨y, hy, rfl⟩
  by_cases hyj : y.id = i
  · rw [if_pos hyj]
    exact ⟨rfl, rfl⟩
  · rw [if_neg hyj] at hid
    exact absurd hid hyj

lemma processDue_preserves_retiredSince {env : Nat → FireResult} {fuel : Nat}
    {now : Int} {i : Nat} :
    ∀ {rest db db'}, RetiredSince i now db →
      processDue env fuel now db rest = some db' → RetiredSince i now db' := by
  intro rest
  induction rest with
  | nil => intro db db' hdb h; cases h; exact hdb
  | cons s tail ih =>
    intro db db' hdb h
    rw [processDue] at h
    by_cases hu : (env s.id).updatesRow
    · rw [if_pos hu] at h
      by_cases hr : s.recurring
      · rw [if_pos hr] at h
        cases ht : rearmNextPing now (s.interval * TIME_UNITS s.time_unit) fuel with
        | none => rw [ht] at h; cases h
        | some t =>
          rw [ht] at h
          exact ih (setFire_retiredSince hdb) h
      · rw [if_neg hr] at h
        exact ih (setRetire_retiredSince hdb) h
    · rw [if_neg hu] at h
      exact ih hdb h

lemma processDue_establishes_retiredSince {env : Nat → FireResult} {fuel : Nat}
    {now : Int} {r : Reminder} (hrec : r.recurring = false)
    (henv : (env r.id).updatesRow = true) :
    ∀ {rest db db'}, r ∈ rest →
      processDue env fuel now db rest = some db' → RetiredSince r.id now db' := by
  intro rest
  induction rest with
  | nil => intro db db' hmem; cases hmem
  | cons s tail ih =>
    intro db db' hmem h
    rw [processDue] at h
    rcases List.mem_cons.mp hmem with rfl | htail
    · rw [if_pos henv, if_neg (by rw [hrec]; exact Bool.false_ne_true)] at h
      exact processDue_preserves_retiredSince (setRetire_self_retiredSince db) h
    · by_cases hu : (env s.id).updatesRow
      · rw [if_pos hu] at h
        by_cases hr : s.recurring
        · rw [if_pos hr] at h
          cases ht : rearmNextPing now (s.interval * TIME_UNITS s.time_unit) fuel with
          | none => rw [ht] at h; cases h
          | some t => rw [ht] at h; exact ih htail h
        · rw [if_neg hr] at h
          exact ih htail h
      · rw [if_neg hu] at h
        exact ih htail h

lemma setFire_inactiveId {i j : Nat} {now t : Int} {db : List Reminder}
    (h : InactiveId i db) : InactiveId i (setFire j now t db) := by
  intro x hx hid
  rcases List.mem_map.mp hx with ⟨y, hy, rfl⟩
  by_cases hyj : y.id = j
  · rw [if_pos hyj] at hid ⊢
    exact h y hy hid
  · rw [if_neg hyj] at hid ⊢
    exact h y hy hid

lemma setRetire_inactiveId {i j : Nat} {now : Int} {db : List Reminder}
    (h : InactiveId i db) : InactiveId i (setRetire j now db) := by
  intro x hx hid
  rcases List.mem_map.mp hx with ⟨y, hy, rfl⟩
  by_cases hyj : y.id = j
  · rw [if_pos hyj]
  · rw [if_neg hyj] at hid ⊢
    exact h y hy hid

lemma processDue_preserves_inactiveId {env : Nat → FireResult} {fuel : Nat}
    {now : Int} {i : Nat} :
    ∀ {rest db db'}, InactiveId i db →
      processDue env fuel now db rest = some db' → InactiveId i db' := by
  intro rest
  induction rest with
  | nil => intro db db' hdb h; cases h; exact hdb
  | cons s tail ih =>
    intro db db' hdb h
    rw [processDue] at h
    by_cases hu : (env s.id).updatesRow
    · rw [if_pos hu] at h
      by_cases hr : s.recurring
      · rw [if_pos hr] at h
        cases ht : rearmNextPing now (s.interval * TIME_UNITS s.time_unit) fuel with
        | none => rw [ht] at h; cases h
        | some t => rw [ht] at h; exact ih (setFire_inactiveId hdb) h
      · rw [if_neg hr] at h
        exact ih (setRetire_inactiveId hdb) h
    · rw [if_neg hu] at h
      exact ih hdb h

lemma runTicks_preserves_inactiveId {i : Nat} :
    ∀ {ticks : List Tick} {db db' : List Reminder}, InactiveId i db →
      runTicks ticks db = some db' → InactiveId i db' := by
  intro ticks
  induction ticks with
  | nil => intro db db' hdb h; cases h; exact hdb
  | cons t ts ih =>
    intro db db' hdb h
    rw [runTicks] at h
    cases hc : check_reminders t.env t.fuel t.now db with
    | none => rw [hc] at h; cases h
    | some db₁ =>
      rw [hc] at h
      exact ih (processDue_preserves_inactiveId hdb hc) h

lemma inactiveId_not_due {i : Nat} {db : List Reminder} {now : Int}
    (h : InactiveId i db) {x : Reminder} (hx : x ∈ due_and_active db now) :
    x.id ≠ i := by
  rcases mem_due_and_active.mp hx with ⟨hxdb, hact, _⟩
  intro hid
  rw [h x hxdb hid] at hact
  cases hact

/-- C1: when the scheduler successfully fires a one-time reminder, the update
sets `active` to `false` and records `last_ping := now`, and from then on no
sequence of later ticks ever shows a row with that id in the
`due_and_active` query result again. -/
theorem one_time_reminder_fires_at_most_once
    (env : Nat → FireResult) (fuel : Nat) (now : Int) (db db' : List Reminder)
    (r : Reminder) (hdue : r ∈ due_and_active db now) (hrec : r.recurring = false)
    (henv : env r.id = FireResult.sent)
    (h : check_reminders env fuel now db = some db') :
    (∀ x ∈ db', x.id = r.id → x.active = false ∧ x.last_ping = some now) ∧
    (∀ ticks db'', runTicks ticks db' = some db'' →
      ∀ now'' x, x ∈ due_and_active db'' now'' → x.id ≠ r.id) := by
  have hret : RetiredSince r.id now db' :=
    processDue_establishes_retiredSince hrec (by rw [henv]; rfl) hdue h
  refine ⟨hret, ?_⟩
  intro ticks db'' hrun now'' x hx
  have hinact : InactiveId r.id db' := fun y hy hid => (hret y hy hid).1
  exact inactiveId_not_due (runTicks_preserves_inactiveId hinact hrun) hx

/-- Witness for C1: a concrete one-time reminder fired at instant 0, then a
later tick at instant 1000 in which it no longer appears as due. -/
theorem one_time_reminder_fires_at_most_once_witness :
    (∀ x ∈ [(⟨1, 4, 5, .minutes, some 0, 0, false, false⟩ : Reminder)],
      x.id = 1 → x.active = false ∧ x.last_ping = some 0) ∧
    (∀ ticks db'',
      runTicks ticks [(⟨1, 4, 5, .minutes, some 0, 0, false, false⟩ : Reminder)] = some db'' →
      ∀ now'' x, x ∈ due_and_active db'' now'' → x.id ≠ 1) :=
  one_time_reminder_fires_at_most_once (fun _ => FireResult.sent) 1 0
    [⟨1, 4, 5, .minutes, none, 0, true, false⟩]
    [⟨1, 4, 5, .minutes, some 0, 0, false, false⟩]
    ⟨1, 4, 5, .minutes, none, 0, true, false⟩
    (by decide) (by decide) (by decide) (by decide)

/-! ### Rows whose outcome never reaches the update are left untouched -/

lemma map_filter_id_eq {i : Nat} {f : Reminder → Reminder}
    (hid : ∀ x, (f x).id = x.id) (hfix : ∀ x, x.id = i → f x = x) :
    ∀ db : List Reminder,
      (db.map f).filter (fun x => x.id == i) = db.filter (fun x => x.id == i) := by
  intro db
  induction db with
  | nil => rfl
  | cons y t ih =>
    simp only [List.map_cons, List.filter_cons, hid y]
    by_cases hy : y.id = i
    · simp [hy, hfix y hy, ih]
    · simp [hy, ih]

lemma setFire_filter_id_eq {i j : Nat} {now t : Int} (hne : j ≠ i)
    (db : List Reminder) :
    (setFire j now t db).filter (fun x => x.id == i) = db.filter (fun x => x.id == i) := by
  refine map_filter_id_eq (fun x => ?_) (fun x hx => ?_) db
  · by_cases hxj : x.id = j
    · rw [if_pos hxj]
    · rw [if_neg hxj]
  · rw [if_neg (by rw [hx]; exact fun h => hne h.symm)]

lemma setRetire_filter_id_eq {i j : Nat} {now : Int} (hne : j ≠ i)
    (db : List Reminder) :
    (setRetire j now db).filter (fun x => x.id == i) = db.filter (fun x => x.id == i) := by
  refine map_filter_id_eq (fun x => ?_) (fun x hx => ?_) db
  · by_cases hxj : x.id = j
    · rw [if_pos hxj]
    · rw [if_neg hxj]
  · rw [if_neg (by rw [hx]; exact fun h => hne h.symm)]

/-- Processing a due snapshot never touches rows whose id has an outcome that
does not reach the update statements. -/
lemma processDue_untouched_filter {env : Nat → FireResult} {fuel : Nat}
    {now : Int} {i : Nat} (henv : (env i).updatesRow = false) :
    ∀ {rest db db'}, processDue env fuel now db rest = some db' →
      db'.filter (fun x => x.id == i) = db.filter (fun x => x.id == i) := by
  intro rest
  induction rest with
  | nil => intro db db' h; cases h; rfl
  | cons s tail ih =>
    intro db db' h
    rw [processDue] at h
    by_cases hu : (env s.id).updatesRow
    · have hsi : s.id ≠ i := fun hcon => by rw [hcon, henv] at hu; cases hu
      rw [if_pos hu] at h
      by_cases hr : s.recurring
      · rw [if_pos hr] at h
        cases ht : rearmNextPing now (s.interval * TIME_UNITS s.time_unit) fuel with
        | none => rw [ht] at h; cases h
        | some t =>
          rw [ht] at h
          rw [ih h, setFire_filter_id_eq hsi]
      · rw [if_neg hr] at h
        rw [ih h, setRetire_filter_id_eq hsi]
    · rw [if_neg hu] at h
      exact ih h

lemma filter_id_eq_mem {i : Nat} {db db' : List Reminder}
    (hf : db'.filter (fun x => x.id == i) = db.filter (fun x => x.id == i))
    {x : Reminder} (hx : x ∈ db) (hxi : x.id = i) : x ∈ db' := by
  have : x ∈ db.filter (fun x => x.id == i) :=
    List.mem_filter.mpr ⟨hx, beq_iff_eq.mpr hxi⟩
  rw [← hf] at this
  exact (List.mem_filter.mp this).1

/-- C3 counterexample: on a tick where the send raises `discord.Forbidden`,
the scheduler does NOT apply the transition it applies on successful delivery.
For a concrete due recurring reminder, the forbidden tick leaves the table
unchanged while the delivered tick re-arms the row, and the two results
differ. -/
theorem forbidden_not_same_transition_as_delivered_counterexample :
    check_reminders (fun _ => FireResult.forbidden) 2 100
        [(⟨1, 4, 5, .minutes, none, 100, true, true⟩ : Reminder)]
      = some [(⟨1, 4, 5, .minutes, none, 100, true, true⟩ : Reminder)] ∧
    check_reminders (fun _ => FireResult.sent) 2 100
        [(⟨1, 4, 5, .minutes, none, 100, true, true⟩ : Reminder)]
      = some [(⟨1, 4, 5, .minutes, some 100, 400, true, true⟩ : Reminder)] ∧
    some [(⟨1, 4, 5, .minutes, none, 100, true, true⟩ : Reminder)]
      ≠ some [(⟨1, 4, 5, .minutes, some 100, 400, true, true⟩ : Reminder)] := by
  refine ⟨by decide, by decide, by decide⟩

/-- C3 amended: when the send for a due reminder raises `discord.Forbidden`
(the update is inside the same `try`), the scheduler applies NO state
transition: every row with that id passes through the tick unchanged, the
reminder is still present, and it is still due at the old `next_ping` — the
fire is retried, not consumed. -/
theorem forbidden_send_applies_no_state_transition
    (env : Nat → FireResult) (fuel : Nat) (now : Int) (db db' : List Reminder)
    (r : Reminder) (hdue : r ∈ due_and_active db now)
    (henv : env r.id = FireResult.forbidden)
    (h : check_reminders env fuel now db = some db') :
    db'.filter (fun x => x.id == r.id) = db.filter (fun x => x.id == r.id) ∧
    r ∈ db' ∧ ∀ now', now ≤ now' → r ∈ due_and_active db' now' := by
  have hup : (env r.id).updatesRow = false := by rw [henv]; rfl
  have hf := processDue_untouched_filter hup h
  rcases mem_due_and_active.mp hdue with ⟨hmem, hact, hnext⟩
  have hmem' : r ∈ db' := filter_id_eq_mem hf hmem rfl
  exact ⟨hf, hmem', fun now' hnow' =>
    mem_due_and_active.mpr ⟨hmem', hact, le_trans hnext hnow'⟩⟩

/-- Witness for the amended C3 at a concrete forbidden tick. -/
theorem forbidden_send_applies_no_state_transition_witness :
    [(⟨1, 4, 5, .minutes, none, 100, true, true⟩ : Reminder)].filter
        (fun x => x.id == 1)
      = [(⟨1, 4, 5, .minutes, none, 100, true, true⟩ : Reminder)].filter
        (fun x => x.id == 1) ∧
    (⟨1, 4, 5, .minutes, none, 100, true, true⟩ : Reminder)
      ∈ [(⟨1, 4, 5, .minutes, none, 100, true, true⟩ : Reminder)] ∧
    ∀ now', (100 : Int) ≤ now' →
      (⟨1, 4, 5, .minutes, none, 100, true, true⟩ : Reminder)
        ∈ due_and_active [(⟨1, 4, 5, .minutes, none, 100, true, true⟩ : Reminder)] now' :=
  forbidden_send_applies_no_state_transition (fun _ => FireResult.forbidden) 2 100
    [⟨1, 4, 5, .minutes, none, 100, true, true⟩]
    [⟨1, 4, 5, .minutes, none, 100, true, true⟩]
    ⟨1, 4, 5, .minutes, none, 100, true, true⟩
    (by decide) (by decide) (by decide)

/-- C6: a due reminder none of whose targets resolve is skipped without
consuming a fire: every row with its id is left entirely unchanged by the
tick (`active`, `next_ping`, `last_ping` untouched), the row is still
present, and it is due again on any later tick. -/
theorem unresolved_targets_skipped_row_unchanged
    (env : Nat → FireResult) (fuel : Nat) (now : Int) (db db' : List Reminder)
    (r : Reminder) (hdue : r ∈ due_and_active db now)
    (henv : env r.id = FireResult.noTargets)
    (h : check_reminders env fuel now db = some db') :
    db'.filter (fun x => x.id == r.id) = db.filter (fun x => x.id == r.id) ∧
    r ∈ db' ∧ ∀ now', now ≤ now' → r ∈ due_and_active db' now' := by
  have hup : (env r.id).updatesRow = false := by rw [henv]; rfl
  have hf := processDue_untouched_filter hup h
  rcases mem_due_and_active.mp hdue with ⟨hmem, hact, hnext⟩
  have hmem' : r ∈ db' := filter_id_eq_mem hf hmem rfl
  exact ⟨hf, hmem', fun now' hnow' =>
    mem_due_and_active.mpr ⟨hmem', hact, le_trans hnext hnow'⟩⟩

/-- Witness for C6 at a concrete no-targets tick. -/
theorem unresolved_targets_skipped_row_unchanged_witness :
    [(⟨2, 9, 1, .hours, some 3, 40, true, true⟩ : Reminder)].filter
        (fun x => x.id == 2)
      = [(⟨2, 9, 1, .hours, some 3, 40, true, true⟩ : Reminder)].filter
        (fun x => x.id == 2) ∧
    (⟨2, 9, 1, .hours, some 3, 40, true, true⟩ : Reminder)
      ∈ [(⟨2, 9, 1, .hours, some 3, 40, true, true⟩ : Reminder)] ∧
    ∀ now', (40 : Int) ≤ now' →
      (⟨2, 9, 1, .hours, some 3, 40, true, true⟩ : Reminder)
        ∈ due_and_active [(⟨2, 9, 1, .hours, some 3, 40, true, true⟩ : Reminder)] now' :=
  unresolved_targets_skipped_row_unchanged (fun _ => FireResult.noTargets) 2 40
    [⟨2, 9, 1, .hours, some 3, 40, true, true⟩]
    [⟨2, 9, 1, .hours, some 3, 40, true, true⟩]
    ⟨2, 9, 1, .hours, some 3, 40, true, true⟩
    (by decide) (by decide) (by decide)

/-! ### Pause and resume -/

/-- Result reported to the caller by `pause_ping` / `resume_ping`. -/
inductive OpResult
  | notFound
  | alreadyPaused
  | alreadyActive
  | done
deriving DecidableEq, Repr

/-- `SELECT * FROM reminders WHERE id = ? AND guild_id = ?` + `fetchone()`
(bot.py:1441-1443 and 1537-1539): the first matching row, if any. -/
def fetchReminder (db : List Reminder) (rid gid : Nat) : Option Reminder :=
  db.find? fun r => r.id == rid && r.guild_id == gid

/-- `pause_ping` (bot.py:1439-1459), the `reminder_id is not None` path:
not found → error; `not reminder[12]` (inactive) → "already paused" error,
no change; else `UPDATE reminders SET active = 0 WHERE id = ?`. -/
def pause_ping (db : List Reminder) (rid gid : Nat) : OpResult × List Reminder :=
  match fetchReminder db rid gid with
  | none => (.notFound, db)
  | some r =>
    if !r.active then (.alreadyPaused, db)
    else (.done, db.map fun x => if x.id = rid then { x with active := false } else x)

/-- `resume_ping` (bot.py:1535-1564), the `reminder_id is not None` path:
not found → error; active → "already active" error, no change; else
`now = datetime.now()` (NAIVE local clock, bot.py:1550 — not `pytz.utc` as
everywhere else), `next_ping = now + interval * TIME_UNITS[unit]` minutes,
then `UPDATE reminders SET active = 1, next_ping = ? WHERE id = ?`.
`localNow` is that naive local instant; on a host whose local clock is offset
from UTC it differs from the scheduler's `now` by that offset (the SQL string
comparison of a naive isoformat against an aware one orders by the naive
reading, the offset suffix only breaking ties). -/
def resume_ping (db : List Reminder) (rid gid : Nat) (localNow : Int) :
    OpResult × List Reminder :=
  match fetchReminder db rid gid with
  | none => (.notFound, db)
  | some r =>
    if r.active then (.alreadyActive, db)
    else
      let next_ping := localNow + timedeltaMinutes (r.interval * TIME_UNITS r.time_unit)
      (.done, db.map fun x =>
        if x.id = rid then { x with active := true, next_ping := next_ping } else x)

/-- C9: pausing a reminder that is not active reports "already paused" and
resuming one that is already active reports "already active"; in both cases
the table is returned completely unchanged. -/
theorem pause_resume_conflicts_leave_state_unchanged
    (db db₂ : List Reminder) (rid gid rid₂ gid₂ : Nat) (localNow : Int)
    (r r₂ : Reminder)
    (hfind : fetchReminder db rid gid = some r) (hpaused : r.active = false)
    (hfind₂ : fetchReminder db₂ rid₂ gid₂ = some r₂) (hactive : r₂.active = true) :
    pause_ping db rid gid = (.alreadyPaused, db) ∧
    resume_ping db₂ rid₂ gid₂ localNow = (.alreadyActive, db₂) := by
  constructor
  · rw [pause_ping, hfind]
    simp [hpaused]
  · rw [resume_ping, hfind₂]
    simp [hactive]

/-- Witness for C9: a concrete paused reminder rejected by pause and a
concrete active one rejected by resume. -/
theorem pause_resume_conflicts_leave_state_unchanged_witness :
    pause_ping [(⟨3, 8, 2, .hours, none, 500, false, true⟩ : Reminder)] 3 8
      = (.alreadyPaused, [(⟨3, 8, 2, .hours, none, 500, false, true⟩ : Reminder)]) ∧
    resume_ping [(⟨4, 8, 2, .hours, none, 500, true, true⟩ : Reminder)] 4 8 999
      = (.alreadyActive, [(⟨4, 8, 2, .hours, none, 500, true, true⟩ : Reminder)]) :=
  pause_resume_conflicts_leave_state_unchanged
    [⟨3, 8, 2, .hours, none, 500, false, true⟩]
    [⟨4, 8, 2, .hours, none, 500, true, true⟩]
    3 8 4 8 999
    ⟨3, 8, 2, .hours, none, 500, false, true⟩
    ⟨4, 8, 2, .hours, none, 500, true, true⟩
    (by decide) (by decide) (by decide) (by decide)

/-- C5 failing input: `resume_ping` computes `next_ping` from the NAIVE local
clock (`datetime.now()`, bot.py:1550) while the scheduler's due query compares
against UTC.  On a host 5 hours west of UTC (offset −18000 s), resuming a
1-minute reminder at UTC instant 1000000 (local naive instant 982000) stores
`next_ping = 982060`, which is already ≤ the UTC `now` of the very same
instant — the resumed reminder is immediately due, contradicting the claim
that it never satisfies the due condition on the tick of the resume. -/
theorem resume_uses_naive_local_clock_failing_input :
    resume_ping [(⟨7, 3, 1, .minutes, none, 50, false, true⟩ : Reminder)] 7 3
        (1000000 + (-18000))
      = (.done, [(⟨7, 3, 1, .minutes, none, 982060, true, true⟩ : Reminder)]) ∧
    due_and_active [(⟨7, 3, 1, .minutes, none, 982060, true, true⟩ : Reminder)] 1000000
      = [(⟨7, 3, 1, .minutes, none, 982060, true, true⟩ : Reminder)] := by
  refine ⟨by decide, by decide⟩

/-! ### Python string primitives, over `List Char`

Core `String` functions do not reduce in the kernel, so the Python string
operations `parse_time` and `add_reminder` rely on are re-implemented over
`List Char` (ASCII semantics, which covers the formats involved). -/

/-- Python's whitespace set for `str.strip()` / `str.split()`
(space and `\t\n\v\f\r`). -/
def pyIsSpace (c : Char) : Bool := c.toNat = 32 || (9 ≤ c.toNat && c.toNat ≤ 13)

/-- Python `str.lower()` (ASCII). -/
def pyLower (s : List Char) : List Char := s.map Char.toLower

/-- Python `sub in s` for strings: substring occurrence. -/
def isInfixList (pat : List Char) : List Char → Bool
  | [] => pat.isEmpty
  | c :: t => pat.isPrefixOf (c :: t) || isInfixList pat t

/-- Worker for `str.replace` with non-empty pattern `p :: ps`: when `skip`
is positive that many characters of an already-replaced occurrence remain to
be consumed; at `skip = 0` an occurrence starting at the head is replaced
(consuming the head now and `ps.length` further characters via `skip`). -/
def replaceAllAux (p : Char) (ps repl : List Char) : List Char → Nat → List Char
  | [], _ => []
  | _ :: t, skip + 1 => replaceAllAux p ps repl t skip
  | c :: t, 0 =>
    if (p :: ps).isPrefixOf (c :: t) then repl ++ replaceAllAux p ps repl t ps.length
    else c :: replaceAllAux p ps repl t 0

/-- Python `str.replace(pat, repl)`: replace every non-overlapping occurrence
left to right.  No call site passes an empty pattern (Python's semantics
there differ); that case returns the string unchanged. -/
def pyReplace (pat repl s : List Char) : List Char :=
  match pat with
  | [] => s
  | p :: ps => replaceAllAux p ps repl s 0

/-- Python `str.strip()`: drop whitespace from both ends. -/
def pyStrip (s : List Char) : List Char :=
  ((s.dropWhile pyIsSpace).reverse.dropWhile pyIsSpace).reverse

/-- Worker for `str.split()`: `acc` holds the current word, reversed. -/
def splitWsGo : List Char → List Char → List (List Char)
  | [], acc => if acc = [] then [] else [acc.reverse]
  | c :: t, acc =>
    if pyIsSpace c then
      if acc = [] then splitWsGo t [] else acc.reverse :: splitWsGo t []
    else splitWsGo t (c :: acc)

/-- Python `str.split()` (no argument): split on whitespace runs, dropping
empty pieces. -/
def splitWs (s : List Char) : List (List Char) := splitWsGo s []

/-- Python `int(s)` as used on mention/id substrings: a non-empty digit
string (signs and surrounding whitespace, which `int` also accepts, never
occur in the mention syntax being parsed). -/
def digitsToNat? (s : List Char) : Option Nat :=
  if s ≠ [] ∧ s.all Char.isDigit then
    some (s.foldl (fun acc c => 10 * acc + (c.toNat - 48)) 0)
  else none

/-! ### strptime for the two formats `parse_time` uses

CPython's `strptime` lowercases the input and matches it, in full, against a
regex built from the format; the fragments are `%I ↦ 1[0-2]|0[1-9]|[1-9]`,
`%H ↦ 2[0-3]|[0-1]\d|\d`, `%M ↦ [0-5]\d|\d`, `%p ↦ am|pm` (alternatives
tried left to right), raising `ValueError` (here: `none`) on any mismatch or
leftover input. -/

/-- Match `%I` (`1[0-2]|0[1-9]|[1-9]`) at the front, returning the hour
(1-12) and the rest. -/
def matchI : List Char → Option (Nat × List Char)
  | [] => none
  | c :: rest =>
    if c = '1' then
      match rest with
      | c₂ :: rest₂ =>
        if 48 ≤ c₂.toNat && c₂.toNat ≤ 50 then some (10 + (c₂.toNat - 48), rest₂)
        else some (1, rest)
      | [] => some (1, [])
    else if 50 ≤ c.toNat && c.toNat ≤ 57 then some (c.toNat - 48, rest)
    else if c = '0' then
      match rest with
      | c₂ :: rest₂ =>
        if 49 ≤ c₂.toNat && c₂.toNat ≤ 57 then some (c₂.toNat - 48, rest₂) else none
      | [] => none
    else none

/-- Match `%p` (`am|pm`, lowercased input) at the front; `true` means pm. -/
def matchP : List Char → Option (Bool × List Char)
  | 'a' :: 'm' :: rest => some (false, rest)
  | 'p' :: 'm' :: rest => some (true, rest)
  | _ => none

/-- Match `%H` (`2[0-3]|[0-1]\d|\d`) at the front. -/
def matchH : List Char → Option (Nat × List Char)
  | [] => none
  | c :: rest =>
    if c = '2' then
      match rest with
      | c₂ :: rest₂ =>
        if 48 ≤ c₂.toNat && c₂.toNat ≤ 51 then some (20 + (c₂.toNat - 48), rest₂)
        else some (2, rest)
      | [] => some (2, [])
    else if c = '0' || c = '1' then
      match rest with
      | c₂ :: rest₂ =>
        if c₂.isDigit then some (10 * (c.toNat - 48) + (c₂.toNat - 48), rest₂)
        else some (c.toNat - 48, rest)
      | [] => some (c.toNat - 48, [])
    else if c.isDigit then some (c.toNat - 48, rest)
    else none

/-- Match `%M` (`[0-5]\d|\d`) at the front. -/
def matchM : List Char → Option (Nat × List Char)
  | [] => none
  | c :: rest =>
    if 48 ≤ c.toNat && c.toNat ≤ 53 then
      match rest with
      | c₂ :: rest₂ =>
        if c₂.isDigit then some (10 * (c.toNat - 48) + (c₂.toNat - 48), rest₂)
        else some (c.toNat - 48, rest)
      | [] => some (c.toNat - 48, [])
    else if c.isDigit then some (c.toNat - 48, rest)
    else none

/-- `datetime.strptime(s, '%I%p').time()` reduced to its (hour, minute):
pm maps 1-11 to 13-23 and keeps 12; am maps 12 to 0; minute defaults to 0.
`none` is `ValueError`. -/
def strptimeIp (s : List Char) : Option (Nat × Nat) :=
  match matchI (pyLower s) with
  | none => none
  | some (h12, rest) =>
    match matchP rest with
    | none => none
    | some (pm, rest₂) =>
      match rest₂ with
      | [] =>
        if pm then some ((if h12 = 12 then 12 else h12 + 12), 0)
        else some ((if h12 = 12 then 0 else h12), 0)
      | _ => none

/-- `datetime.strptime(s, '%H:%M').time()` reduced to its (hour, minute);
`none` is `ValueError`. -/
def strptimeHM (s : List Char) : Option (Nat × Nat) :=
  match matchH (pyLower s) with
  | some (h, ':' :: rest) =>
    match matchM rest with
    | some (m, []) => some (h, m)
    | _ => none
  | _ => none

/-! ### parse_time -/

/-- A local wall-clock datetime in the group's (fixed-offset) timezone:
`day` counts days, the rest is the time of day.  `second` carries what
`datetime.now` put there; `datetime.replace(hour=…, minute=…)` keeps it. -/
structure LocalDT where
  day : Nat
  hour : Nat
  minute : Nat
  second : Nat
deriving DecidableEq, Repr

/-- Python `datetime <` comparison (same fixed-offset tzinfo): lexicographic
on (day, hour, minute, second). -/
def LocalDT.lt (a b : LocalDT) : Bool :=
  decide (a.day < b.day) ||
    (decide (a.day = b.day) &&
      (decide (a.hour < b.hour) ||
        (decide (a.hour = b.hour) &&
          (decide (a.minute < b.minute) ||
            (decide (a.minute = b.minute) && decide (a.second < b.second))))))

/-- Seconds represented by a `LocalDT`, for `(a - b).total_seconds()`. -/
def LocalDT.toSecs (a : LocalDT) : Int :=
  86400 * a.day + 3600 * a.hour + 60 * a.minute + a.second

/-- `parse_time` (bot.py:174-196).  `now = datetime.now(tz)` is passed in as
the group-local wall clock; `timedelta(days=1)` is `day + 1` (fixed-offset
arithmetic), `.replace(hour, minute)` keeps `day` and `second`, and a
plain clock time that is already past rolls forward one day. -/
def parse_time (time_str : String) (now : LocalDT) : Option LocalDT :=
  let lower := pyLower time_str.data
  if lower = "tomorrow".data then
    some { now with day := now.day + 1, hour := 9, minute := 0 }
  else if isInfixList "tomorrow".data lower then
    let time_part := pyStrip (pyReplace "tomorrow".data [] lower)
    match (if time_part.contains 'm' then strptimeIp time_part else strptimeHM time_part) with
    | none => none
    | some (h, m) => some { now with day := now.day + 1, hour := h, minute := m }
  else
    match (if lower.contains 'm' then strptimeIp time_str.data
           else strptimeHM time_str.data) with
    | none => none
    | some (h, m) =>
      let result : LocalDT := { now with hour := h, minute := m }
      if LocalDT.lt result now then some { result with day := result.day + 1 }
      else some result

/-! ### add_reminder -/

/-- `target_type` column tag. -/
inductive TargetKind
  | user
  | role
deriving DecidableEq, Repr

/-- The discord-side directory, abstracted: which ids currently resolve via
`guild.get_member` / `guild.get_role`. -/
structure Guild where
  members : Nat → Bool
  roles : Nat → Bool

/-- One iteration of the word-classification in `add_reminder`'s target loop
(bot.py:685-717): role mentions `<@&id>`, user mentions `<@id>` (with `!`
stripped), or raw ids checked against the guild (role first, then member);
`none` is the `continue` on a parse failure or unresolvable raw id. -/
def parseWord (g : Guild) (w : List Char) : Option (Nat × Bool) :=
  if "<@&".data.isPrefixOf w then
    match digitsToNat? ((w.drop 3).dropLast) with
    | some n => some (n, true)
    | none => none
  else if "<@".data.isPrefixOf w then
    match digitsToNat? (pyReplace "!".data [] ((w.drop 2).dropLast)) with
    | some n => some (n, false)
    | none => none
  else
    match digitsToNat? w with
    | some n =>
      if g.roles n then some (n, true)
      else if g.members n then some (n, false)
      else none
    | none => none

/-- The accumulation part of the target loop (bot.py:719-728): a truthy
`target_id` sets the kind from the first kept word and rejects a kind
mismatch (`.error ()` = the "Cannot mix users and roles" early return);
`target_id = 0` is falsy and skipped. -/
def collectTargets (g : Guild) :
    List (List Char) → List Nat → Option TargetKind →
      Except Unit (List Nat × Option TargetKind)
  | [], acc, tk => .ok (acc, tk)
  | w :: ws, acc, tk =>
    match parseWord g w with
    | none => collectTargets g ws acc tk
    | some (tid, isRole) =>
      if tid ≠ 0 then
        match tk with
        | none =>
          collectTargets g ws (acc ++ [tid]) (some (if isRole then .role else .user))
        | some k =>
          if decide (k = TargetKind.role) ≠ isRole then .error ()
          else collectTargets g ws (acc ++ [tid]) (some k)
      else collectTargets g ws acc tk

/-- Channel resolution of `add_reminder` (bot.py:761-782): an explicit
channel wins; DM needs none; otherwise the interaction's channel, then the
guild's default channel; `.error ()` is the "No channel specified" return. -/
def resolveChannel (channel? : Option Nat) (dm : Bool)
    (interactionChannel? defaultChannel? : Option Nat) : Except Unit (Option Nat) :=
  match channel? with
  | some c => .ok (some c)
  | none =>
    if dm then .ok none
    else
      match interactionChannel? with
      | some c => .ok (some c)
      | none =>
        match defaultChannel? with
        | some c => .ok (some c)
        | none => .error ()

/-- `repeat` option of `add_reminder`: `Literal['never', 'daily', 'weekly']`. -/
inductive RepeatKind
  | never
  | daily
  | weekly
deriving DecidableEq, Repr

/-- Result reported to the caller by `add_reminder`. -/
inductive AddRes
  | invalidTime
  | mixedTargets
  | noTargets
  | targetsNotFound
  | dmToRole
  | noChannel
  | created
deriving DecidableEq, Repr

/-- `add_reminder` (bot.py:647-838) as a transformer of the reminders table.
The steps, in source order: parse the time expression (failure → validation
error, bot.py:669-679); parse and accumulate targets (mixed kinds → error);
reject an empty target list; verify every target still resolves
(bot.py:737-752); reject DM-to-role; resolve the delivery channel; compute
`interval`/`recurring` from `repeat` (`never` → minutes until the target,
`int(total_seconds/60)` truncating toward zero); insert the row with
`time_unit='minutes'`, `last_ping = now`, `next_ping = target_time`,
`active = True` (bot.py:784-819).  Every non-`created` outcome returns the
table unchanged.  The row keeps only the columns of `Reminder`; `now` and the
stored instants are group-local wall-clock values (`now.isoformat()` /
`target_time.isoformat()` are stored unconverted, bot.py:813-814). -/
def add_reminder (db : List Reminder) (g : Guild) (newId gid : Nat)
    (targets time_str : String) (rep : RepeatKind) (dm : Bool)
    (channel? interactionChannel? defaultChannel? : Option Nat)
    (now : LocalDT) : AddRes × List Reminder :=
  match parse_time time_str now with
  | none => (.invalidTime, db)
  | some target_time =>
    match collectTargets g (splitWs targets.data) [] none with
    | .error _ => (.mixedTargets, db)
    | .ok (target_ids, tk) =>
      match tk with
      | none => (.noTargets, db)
      | some k =>
        if target_ids = [] then (.noTargets, db)
        else
          let invalid_ids := target_ids.filter fun tid =>
            match k with
            | .user => !(g.members tid)
            | .role => !(g.roles tid)
          if invalid_ids ≠ [] then (.targetsNotFound, db)
          else if k = TargetKind.role ∧ dm = true then (.dmToRole, db)
          else
            match resolveChannel channel? dm interactionChannel? defaultChannel? with
            | .error _ => (.noChannel, db)
            | .ok _ =>
              let intervalRecurring : Int × Bool :=
                match rep with
                | .never => (Int.tdiv (target_time.toSecs - now.toSecs) 60, false)
                | .daily => ((1440 : Int), true)
                | .weekly => ((10080 : Int), true)
              (.created,
                db ++ [⟨newId, gid, intervalRecurring.1, .minutes, some now.toSecs,
                  target_time.toSecs, true, intervalRecurring.2⟩])

/-- C7: when `parse_time` cannot parse the time expression, `add_reminder`
reports the invalid-time validation error and returns the reminders table
completely unchanged — nothing is inserted or modified. -/
theorem unparseable_time_reports_error_mutates_nothing
    (db : List Reminder) (g : Guild) (newId gid : Nat)
    (targets time_str : String) (rep : RepeatKind) (dm : Bool)
    (channel? interactionChannel? defaultChannel? : Option Nat) (now : LocalDT)
    (hparse : parse_time time_str now = none) :
    add_reminder db g newId gid targets time_str rep dm
        channel? interactionChannel? defaultChannel? now
      = (AddRes.invalidTime, db) := by
  unfold add_reminder
  rw [hparse]

/-- Witness for C7: the unparseable expression "soon" on a concrete state. -/
theorem unparseable_time_reports_error_mutates_nothing_witness :
    add_reminder [⟨9, 2, 5, .minutes, none, 77, true, true⟩]
        ⟨fun _ => false, fun _ => false⟩ 1 2 "<@3>" "soon" .never false
        none none none ⟨0, 10, 0, 0⟩
      = (AddRes.invalidTime, [⟨9, 2, 5, .minutes, none, 77, true, true⟩]) :=
  unparseable_time_reports_error_mutates_nothing
    [⟨9, 2, 5, .minutes, none, 77, true, true⟩]
    ⟨fun _ => false, fun _ => false⟩ 1 2 "<@3>" "soon" .never false
    none none none ⟨0, 10, 0, 0⟩ (by decide)

/-- C8: with the group timezone UTC (so the local wall clock is UTC itself),
parsing "3pm" at exactly 2:00pm yields 15:00 the same day, and at exactly
4:00pm yields 15:00 the following day — a clock time already past rolls
forward one day.  `d` is the (arbitrary) current day. -/
theorem clock_time_parses_and_rolls_forward (d : Nat) :
    parse_time "3pm" ⟨d, 14, 0, 0⟩ = some ⟨d, 15, 0, 0⟩ ∧
    parse_time "3pm" ⟨d, 16, 0, 0⟩ = some ⟨d + 1, 15, 0, 0⟩ := by
  have h15 : strptimeIp "3pm".data = some (15, 0) := by decide
  have hc1 : ¬ (pyLower "3pm".data = "tomorrow".data) := by decide
  have hc2 : isInfixList "tomorrow".data (pyLower "3pm".data) = false := by decide
  have hc3 : (pyLower "3pm".data).contains 'm' = true := by decide
  constructor
  · simp only [parse_time, h15, hc2, hc3, if_neg hc1, if_true, Bool.false_eq_true,
      if_false]
    simp [LocalDT.lt]
  · simp only [parse_time, h15, hc2, hc3, if_neg hc1, if_true, Bool.false_eq_true,
      if_false]
    simp [LocalDT.lt]

end Pingur
